import Mathlib

/-!
Verification of the anymarkup core (format resolution, content sniffing,
text normalization, parse/serialize façade) against its specification.

The source is a single Python module.  Byte strings are modelled as
`List Nat` (one entry per byte), Python `None`-able arguments as `Option`,
and exceptions as `Except`.  The four external codec bindings
(configobj / json / xmltodict / yaml) are opaque collaborators in the
source, so they appear here as function parameters; everything else is a
direct translation of the code of the module itself.
-/

namespace Anymarkup

/-! ## Byte-string primitives (semantics of the Python `bytes` methods used) -/

/-- ASCII whitespace as recognized by `bytes.strip()`. -/
def isSpaceByte (b : Nat) : Bool :=
  b = 32 || b = 9 || b = 10 || b = 13 || b = 11 || b = 12

/-- Python `bytes.strip()`: remove ASCII whitespace from both ends. -/
def bstrip (l : List Nat) : List Nat :=
  ((l.dropWhile isSpaceByte).reverse.dropWhile isSpaceByte).reverse

/-- Helper for `bsplitlines`: `cur` is the reversed current line. -/
def bsplitlinesAux : List Nat → List Nat → List (List Nat)
  | [], cur => [cur.reverse]
  | 13 :: 10 :: rest, cur =>
      cur.reverse :: (if rest = [] then [] else bsplitlinesAux rest [])
  | 10 :: rest, cur =>
      cur.reverse :: (if rest = [] then [] else bsplitlinesAux rest [])
  | 13 :: rest, cur =>
      cur.reverse :: (if rest = [] then [] else bsplitlinesAux rest [])
  | b :: rest, cur => bsplitlinesAux rest (b :: cur)

/-- Python `bytes.splitlines()`: split on LF, CR and CRLF, no trailing empty line. -/
def bsplitlines (l : List Nat) : List (List Nat) :=
  if l = [] then [] else bsplitlinesAux l []

/-- Encode an ASCII Lean string as a Python byte string. -/
def bytesOfAscii (s : String) : List Nat :=
  s.data.map Char.toNat

/-! ## Codec Registry -/

/-- The module-level `fmt_to_exts` dict, in insertion order. -/
def fmt_to_exts : List (String × List String) :=
  [("ini", ["ini"]), ("json", ["json"]), ("xml", ["xml"]), ("yaml", ["yaml", "yml"])]

/-- Python `format in fmt_to_exts` (key membership). -/
def registryHas (f : String) : Bool :=
  fmt_to_exts.any (fun p => p.1 = f)

/-- The `for fmt_name, exts in fmt_to_exts.items()` loop of `_get_format`:
no `break`, so the last matching format wins. -/
def extScan (ext : String) : Option String :=
  fmt_to_exts.foldl (fun acc p => if ext ∈ p.2 then some p.1 else acc) none

/-! ## `os.path.splitext`-based extension extraction -/

/-- Index of the last occurrence of `c` in `s`, or `-1` (Python `rfind`). -/
def rfindChar (s : List Char) (c : Char) : Int :=
  (List.range s.length).foldl
    (fun acc i => if s.get? i = some c then (i : Int) else acc) (-1)

/-- The extension part (with leading dot) returned by `os.path.splitext`,
POSIX separator. The extension is taken from the last dot after the last
path separator, provided the basename is not entirely leading dots. -/
def splitextExt (s : List Char) : List Char :=
  let sep := rfindChar s '/'
  let dot := rfindChar s '.'
  if sep < dot then
    let base := (s.drop (sep + 1).toNat).take (dot - sep - 1).toNat
    if base.any (fun c => c ≠ '.') then s.drop dot.toNat else []
  else []

/-- Python `os.path.splitext(fname)[1][len(os.path.extsep):]`: extension without
the leading dot. -/
def fileExt (fname : String) : String :=
  String.mk ((splitextExt fname.data).drop 1)

/-! ## Content Sniffer (`_guess_fmt_from_bytes`) -/

/-- One byte class of the pattern `[\w-]` over bytes:
ASCII letters, digits, underscore, hyphen. -/
def isWordOrHyphenByte (b : Nat) : Bool :=
  (65 ≤ b && b ≤ 90) || (97 ≤ b && b ≤ 122) || (48 ≤ b && b ≤ 57) || b = 95 || b = 45

/-- Semantics of `re.match` of the pattern for an INI section header against `line`:
a literal opening square bracket, one or more word-or-hyphen bytes, a
literal closing square bracket; anchored at the start only. -/
def iniSectionHeaderMatch (line : List Nat) : Bool :=
  match line with
  | 91 :: rest =>
      let w := rest.takeWhile isWordOrHyphenByte
      decide (w ≠ []) && ((rest.drop w.length).head? == some 93)
  | _ => false

/-- The comment-skipping loop of `_guess_fmt_from_bytes`: returns the first
stripped line that is non-empty and does not start with a hash mark, or,
when no line qualifies, the stripped form of the last line scanned
(the Python loop variable keeps its final value). -/
def scanLines : List (List Nat) → List Nat → List Nat
  | [], line => line
  | l :: rest, _ =>
      let line := bstrip l
      if !(line.head? == some 35) && !line.isEmpty then line
      else scanLines rest line

/-- The function `_guess_fmt_from_bytes`. -/
def guess_fmt_from_bytes (inp : List Nat) : String :=
  let stripped := bstrip inp
  if stripped = [] then "yaml"
  else if stripped.head? == some 60 then "xml"
  else
    let line := scanLines (bsplitlines stripped) []
    if iniSectionHeaderMatch line then "ini" else "yaml"

/-! ## Error-message construction of `_get_format` -/

/-- A Python value usable as a dict key in the error-reporting dict of
`_get_format`: `None`, a str, or a bytes object. -/
inductive PyVal where
  | vnone : PyVal
  | vstr : String → PyVal
  | vbytes : List Nat → PyVal
deriving DecidableEq

/-- Python truthiness of the three possible key values. -/
def PyVal.truthy : PyVal → Bool
  | .vnone => false
  | .vstr s => s ≠ ""
  | .vbytes b => b ≠ []

def pyOfOptStr : Option String → PyVal
  | none => .vnone
  | some s => .vstr s

def pyOfOptBytes : Option (List Nat) → PyVal
  | none => .vnone
  | some b => .vbytes b

/-- Python dict insertion: an existing key keeps its position and gets the
new value; a new key is appended. -/
def dictInsert (d : List (PyVal × String)) (k : PyVal) (v : String) :
    List (PyVal × String) :=
  if d.any (fun p => p.1 = k) then
    d.map (fun p => if p.1 = k then (k, v) else p)
  else d ++ [(k, v)]

/-- The error message built when `_get_format` fails: a dict literal keyed
by the three inputs themselves, iterated in insertion order, keeping the
descriptions of the truthy ones. -/
def format_err_msg (format fname : Option String) (inp : Option (List Nat)) :
    String :=
  let d := dictInsert
             (dictInsert
               (dictInsert [] (pyOfOptStr format) "specified format argument")
               (pyOfOptStr fname) "filename")
             (pyOfOptBytes inp) "input string"
  let what := (d.filter (fun p => p.1.truthy)).map (fun p => p.2)
  let what := if what = [] then ["nothing to guess format from!"] else what
  "Failed to guess markup format based on: " ++ String.intercalate ", " what

/-! ## Format Resolver (`_get_format`) -/

/-- The function `_get_format(format, fname, inp)`.  Mirrors the source exactly: the
extension branch is an `elif` on the override being `None`, the sniffing
branch fires only when no format was chosen and `inp` is not `None`. -/
def get_format (format fname : Option String) (inp : Option (List Nat)) :
    Except String String :=
  let step1 : Option String × Bool :=
    match format with
    | some f => if registryHas f then (some f, false) else (none, true)
    | none =>
      match fname with
      | some fs =>
          if fs ≠ "" then
            match extScan (fileExt fs) with
            | some g => (some g, false)
            | none => (none, true)
          else (none, true)
      | none => (none, true)
  let step2 : Option String × Bool :=
    match step1.1 with
    | none =>
      match inp with
      | some b => (some (guess_fmt_from_bytes b), false)
      | none => step1
    | some _ => step1
  if step2.2 then .error (format_err_msg format fname inp)
  else
    match step2.1 with
    | some f => .ok f
    | none => .error (format_err_msg format fname inp)

/-! ## Canonical Tree -/

/-- The values a codec can hand back: mappings, sequences, decoded text,
raw byte strings, booleans, `None`, or a value of any other Python type
(carrying the display of its type, as `format(type(v))` would print it). -/
inductive Tree where
  | map : List (Tree × Tree) → Tree
  | seq : List Tree → Tree
  | text : String → Tree
  | bytes : List Nat → Tree
  | bool : Bool → Tree
  | null : Tree
  | other : String → Tree

mutual

/-- Structural equality of trees (Python `==` on these values). -/
def Tree.beq : Tree → Tree → Bool
  | .map a, .map b => Tree.beqPairs a b
  | .seq a, .seq b => Tree.beqList a b
  | .text a, .text b => a == b
  | .bytes a, .bytes b => a == b
  | .bool a, .bool b => a == b
  | .null, .null => true
  | .other a, .other b => a == b
  | _, _ => false

def Tree.beqList : List Tree → List Tree → Bool
  | [], [] => true
  | a :: as, b :: bs => Tree.beq a b && Tree.beqList as bs
  | _, _ => false

def Tree.beqPairs : List (Tree × Tree) → List (Tree × Tree) → Bool
  | [], [] => true
  | (k1, v1) :: as, (k2, v2) :: bs =>
      Tree.beq k1 k2 && Tree.beq v1 v2 && Tree.beqPairs as bs
  | _, _ => false

end

mutual

/-- No raw byte string occurs anywhere in the tree. -/
def Tree.noBytes : Tree → Bool
  | .map l => Tree.noBytesPairs l
  | .seq l => Tree.noBytesList l
  | .text _ => true
  | .bytes _ => false
  | .bool _ => true
  | .null => true
  | .other _ => true

def Tree.noBytesList : List Tree → Bool
  | [] => true
  | t :: rest => Tree.noBytes t && Tree.noBytesList rest

def Tree.noBytesPairs : List (Tree × Tree) → Bool
  | [] => true
  | (k, v) :: rest => Tree.noBytes k && Tree.noBytes v && Tree.noBytesPairs rest

end

/-- Python dict assignment `res[k] = v` on an association list: an existing
key keeps its position and gets the new value, a new key is appended. -/
def treeInsert (d : List (Tree × Tree)) (k v : Tree) : List (Tree × Tree) :=
  if d.any (fun p => Tree.beq p.1 k) then
    d.map (fun p => if Tree.beq p.1 k then (k, v) else p)
  else d ++ [(k, v)]

/-! ## Text Normalizer (`_ensure_unicode_recursive`) -/

mutual

/-- The function `_ensure_unicode_recursive(struct, encoding)`.  `dec` is
`bytes.decode(encoding)`, returning `none` on a decode error. -/
def ensure_unicode_recursive (dec : List Nat → Option String) :
    Tree → Except String Tree
  | .map l => (eurPairs dec l []).map Tree.map
  | .seq l => (eurList dec l).map Tree.seq
  | .bytes b =>
      match dec b with
      | some s => .ok (.text s)
      | none => .error "UnicodeDecodeError"
  | .text s => .ok (.text s)
  | .null => .ok .null
  | .bool b => .ok (.bool b)
  | .other ty =>
      .error ("internal error - unexpected type " ++ ty ++ " in parsed markup")

/-- The dict branch: `res[ensure(k)] = ensure(v)` for each item, in
order; CPython evaluates the assigned value before the subscript key. -/
def eurPairs (dec : List Nat → Option String) :
    List (Tree × Tree) → List (Tree × Tree) → Except String (List (Tree × Tree))
  | [], acc => .ok acc
  | (k, v) :: rest, acc => do
      let v' ← ensure_unicode_recursive dec v
      let k' ← ensure_unicode_recursive dec k
      eurPairs dec rest (treeInsert acc k' v')

/-- The list branch: `res.append(ensure(i))` for each element. -/
def eurList (dec : List Nat → Option String) :
    List Tree → Except String (List Tree)
  | [] => .ok []
  | t :: rest => do
      let t' ← ensure_unicode_recursive dec t
      let rest' ← eurList dec rest
      .ok (t' :: rest')

end

/-! ## Parse façade -/

/-- The four external decoders, as opaque collaborators.  Each maps the
raw byte payload to a parsed tree or an exception.  (For json the source
first wraps the stream in a text decoder; that step is part of the opaque
collaborator here.) -/
structure Codecs where
  ini : List Nat → Except String Tree
  json : List Nat → Except String Tree
  xml : List Nat → Except String Tree
  yaml : List Nat → Except String Tree

/-- The function `_do_parse(inp, fmt, encoding)`.  On the legacy runtime (`py2`) the
ini and yaml results are passed through the normalizer; json and xml
results are returned as the codec produced them on both runtimes. -/
def do_parse (c : Codecs) (py2 : Bool) (dec : List Nat → Option String)
    (inp : List Nat) (fmt : String) : Except String Tree :=
  if fmt = "ini" then
    match c.ini inp with
    | .error e => .error e
    | .ok r => if py2 then ensure_unicode_recursive dec r else .ok r
  else if fmt = "json" then c.json inp
  else if fmt = "xml" then c.xml inp
  else if fmt = "yaml" then
    match c.yaml inp with
    | .error e => .error e
    | .ok r => if py2 then ensure_unicode_recursive dec r else .ok r
  else .error "unknown format"

/-- The function `parse(inp, format, encoding)` after its input polymorphism has been
normalized: `inp` is the byte payload and `name` the source name the input
exposed (if any).  Resolution errors and wrapped codec errors are both
`Except.error`; a `None` result is replaced by an empty mapping. -/
def parse (c : Codecs) (py2 : Bool) (dec : List Nat → Option String)
    (inp : List Nat) (name : Option String) (format : Option String) :
    Except String Tree :=
  match get_format format name (some inp) with
  | .error e => .error e
  | .ok fmt =>
    match do_parse c py2 dec inp fmt with
    | .error e => .error e
    | .ok t => .ok (match t with | .null => .map [] | t => t)

/-! ## Serialize façade -/

/-- Failures escaping `serialize`: either the uniform `AnyMarkupError`
envelope, or a raw exception that escapes unwrapped. -/
inductive PyError where
  | anymarkup : String → PyError
  | unwrapped : String → PyError
deriving DecidableEq

/-- The Python type name of a tree value, as it appears in an
`AttributeError` message. -/
def pyTypeName : Tree → String
  | .map _ => "dict"
  | .seq _ => "list"
  | .text _ => "str"
  | .bytes _ => "bytes"
  | .bool _ => "bool"
  | .null => "NoneType"
  | .other ty => ty

/-- The four external encoders, as opaque collaborators. -/
structure Encoders where
  ini : List (Tree × Tree) → List Nat
  json : Tree → List Nat
  xml : Tree → List Nat
  yaml : Tree → List Nat

/-- The function `_do_serialize(struct, fmt, encoding)`.  The ini branch iterates
`struct.items()`, which only mappings support: any other value raises an
`AttributeError` that the caller does not wrap. -/
def do_serialize (e : Encoders) (struct : Tree) (fmt : String) :
    Except PyError (List Nat) :=
  if fmt = "ini" then
    match struct with
    | .map l => .ok (e.ini l)
    | s => .error (.unwrapped
        ("AttributeError: " ++ pyTypeName s ++ " object has no attribute items"))
  else if fmt = "json" then .ok (e.json struct)
  else if fmt = "xml" then .ok (e.xml struct)
  else if fmt = "yaml" then .ok (e.yaml struct)
  else .error (.unwrapped "RuntimeError: No active exception to re-raise")

/-- A write destination: its `encoding` attribute (absent, or present with
a possibly empty value) and its `name` attribute. -/
structure Target where
  encoding : Option String
  name : Option String

/-- The check hasattr of the encoding attribute and its truthiness. -/
def targetTextMode : Option Target → Bool
  | none => false
  | some t =>
    match t.encoding with
    | some e => e ≠ ""
    | none => false

/-- The function `serialize(struct, format, target, encoding)`.  Returns the outcome
together with the list of byte buffers written to the target.  The
text-mode check comes first; format resolution uses only the override and
the target's name; the `_do_serialize` call happens outside the
try/except, so its failures escape unwrapped; only the final write is
wrapped into the envelope. -/
def serialize (e : Encoders) (struct : Tree) (format : Option String)
    (target : Option Target) : Except PyError (List Nat) × List (List Nat) :=
  if targetTextMode target then
    (.error (.anymarkup "Input file must be opened in binary mode"), [])
  else
    let fname := target.bind (fun t => t.name)
    match get_format format fname none with
    | .error m => (.error (.anymarkup m), [])
    | .ok fmt =>
      match do_serialize e struct fmt with
      | .error err => (.error err, [])
      | .ok out =>
        match target with
        | none => (.ok out, [])
        | some _ => (.ok out, [out])

/-! ## Concrete collaborators used by witnesses -/

/-- A demonstration tree standing for the xmltodict result of `<a/>`. -/
def xmlDemoTree : Tree := .map [(.text "a", .null)]

/-- Decoders whose outputs are fixed, fully decoded trees. -/
def demoCodecs : Codecs :=
  { ini := fun _ => .ok (.text "a")
    json := fun _ => .ok (.text "a")
    xml := fun _ => .ok xmlDemoTree
    yaml := fun _ => .ok (.text "a") }

/-- A decode function that always succeeds. -/
def demoDec : List Nat → Option String := fun _ => some "a"

/-- Encoders whose outputs are fixed byte strings. -/
def demoEncoders : Encoders :=
  { ini := fun _ => [97], json := fun _ => [97]
    xml := fun _ => [97], yaml := fun _ => [97] }

/-- A text-mode destination. -/
def textModeTarget : Target := { encoding := some "UTF-8", name := some "out.json" }

end Anymarkup

namespace Anymarkup

/-! ## Claim theorems -/

/-- C1: a recognized explicit override is the result regardless of filename
and content; with no override, a source name whose extension the registry
recognizes decides the format regardless of content; with neither, content
sniffing decides. First satisfied branch wins, no fallthrough. -/
theorem resolution_precedence :
    (∀ f fname inp, registryHas f = true →
        get_format (some f) fname inp = .ok f)
    ∧ (∀ fn inp g, extScan (fileExt fn) = some g →
        get_format none (some fn) inp = .ok g)
    ∧ (∀ inp, get_format none none (some inp) = .ok (guess_fmt_from_bytes inp)) := by
  refine ⟨?_, ?_, ?_⟩
  · intro f fname inp hf
    simp [get_format, hf]
  · intro fn inp g hg
    have hne : fn ≠ "" := by
      intro h
      subst h
      rw [show extScan (fileExt "") = none from by decide] at hg
      exact Option.noConfusion hg
    simp [get_format, hne, hg]
  · intro inp
    simp [get_format]

/-- Witness for C1 at concrete inputs: override json beats an ini filename
and xml content; an ini filename beats xml content; bare xml content sniffs
to xml. -/
theorem resolution_precedence_witness :
    get_format (some "json") (some "x.ini") (some (bytesOfAscii "<a/>")) = .ok "json"
    ∧ get_format none (some "x.ini") (some (bytesOfAscii "<a/>")) = .ok "ini"
    ∧ get_format none none (some (bytesOfAscii "<a/>")) = .ok "xml" :=
  ⟨resolution_precedence.1 "json" (some "x.ini") (some (bytesOfAscii "<a/>")) (by decide),
   resolution_precedence.2.1 "x.ini" (some (bytesOfAscii "<a/>")) "ini" (by decide),
   (resolution_precedence.2.2 (bytesOfAscii "<a/>")).trans (by rfl)⟩

/-- C2 counterexample: with the unrecognized override "bogus", the filename
"f.ini" (whose extension the registry maps to ini) and yaml-looking
content, resolution does not return ini — the extension level is skipped
and the content sniff wins. -/
theorem unrecognized_override_counterexample :
    registryHas "bogus" = false
    ∧ extScan (fileExt "f.ini") = some "ini"
    ∧ get_format (some "bogus") (some "f.ini") (some (bytesOfAscii "key: 1"))
        = .ok "yaml" := by
  refine ⟨by decide, by decide, by rfl⟩

/-- C2 amended: when the override is present but unrecognized, resolution
skips the extension level entirely — whatever the source name is, it falls
directly to content sniffing when content is supplied, and fails when it
is not. -/
theorem unrecognized_override_skips_extension :
    ∀ f fname inp, registryHas f = false →
      get_format (some f) fname (some inp) = .ok (guess_fmt_from_bytes inp)
      ∧ get_format (some f) fname none
          = .error (format_err_msg (some f) fname none) := by
  intro f fname inp hf
  constructor <;> simp [get_format, hf]

/-- Witness for C2 at a concrete input: the bogus override with an ini
filename sniffs yaml content, and fails when no content is supplied. -/
theorem unrecognized_override_skips_extension_witness :
    get_format (some "bogus") (some "f.ini") (some (bytesOfAscii "key: 1"))
      = .ok "yaml"
    ∧ get_format (some "bogus") (some "f.ini") none
      = .error "Failed to guess markup format based on: specified format argument, filename" :=
  ⟨((unrecognized_override_skips_extension "bogus" (some "f.ini")
      (bytesOfAscii "key: 1") (by decide)).1).trans (by rfl),
   ((unrecognized_override_skips_extension "bogus" (some "f.ini")
      (bytesOfAscii "key: 1") (by decide)).2).trans (by rfl)⟩

/-- C5: sniffing determinism — yaml for empty and whitespace-only input,
xml for an angle-bracket start, ini for a section header, yaml for plain
key-value content and for JSON content. -/
theorem sniffing_determinism :
    guess_fmt_from_bytes (bytesOfAscii "") = "yaml"
    ∧ guess_fmt_from_bytes (bytesOfAscii "   \n  ") = "yaml"
    ∧ guess_fmt_from_bytes (bytesOfAscii "<a/>") = "xml"
    ∧ guess_fmt_from_bytes (bytesOfAscii "[section]\nkey=1") = "ini"
    ∧ guess_fmt_from_bytes (bytesOfAscii "key: 1") = "yaml"
    ∧ guess_fmt_from_bytes (bytesOfAscii "\x7b\"key\": 1\x7d") = "yaml" :=
  ⟨rfl, rfl, rfl, rfl, rfl, rfl⟩

/-- C6: evaluation at the failing input — serializing a sequence as ini
resolves the format, then lets the AttributeError raised by
`struct.items()` escape unwrapped, because `_do_serialize` is called
outside the try/except; the documented uniform envelope is bypassed. -/
theorem serialize_seq_ini_unwrapped (e : Encoders) (l : List Tree) :
    serialize e (Tree.seq l) (some "ini") none =
      (.error (.unwrapped "AttributeError: list object has no attribute items"), []) := by
  have hfmt : get_format (some "ini") none none = .ok "ini" := by rfl
  simp [serialize, targetTextMode, hfmt, do_serialize, pyTypeName]

/-- C8: a destination exposing a non-empty text-encoding attribute is
rejected up front, for every structure, every format argument (even an
unresolvable one) and every encoder family, with nothing written. -/
theorem destination_mode_rejection (e : Encoders) (struct : Tree)
    (format : Option String) (tgt : Target) (enc : String)
    (henc : tgt.encoding = some enc) (hne : enc ≠ "") :
    serialize e struct format (some tgt) =
      (.error (.anymarkup "Input file must be opened in binary mode"), []) := by
  simp [serialize, targetTextMode, henc, hne]

/-- Witness for C8: a UTF-8 text-mode target is rejected unwritten even
with no format argument at all. -/
theorem destination_mode_rejection_witness :
    serialize demoEncoders Tree.null none (some textModeTarget) =
      (.error (.anymarkup "Input file must be opened in binary mode"), []) :=
  destination_mode_rejection demoEncoders Tree.null none textModeTarget "UTF-8"
    rfl (by decide)

/-- C3: parsing the bytes of an xml fragment under the unrecognized
override "bogus" resolves to xml by content sniffing and returns the xml
tree of the codec. -/
theorem bogus_override_xml_parse (c : Codecs) (py2 : Bool)
    (dec : List Nat → Option String) (t : Tree)
    (hx : c.xml (bytesOfAscii "<a/>") = .ok t) (ht : t ≠ Tree.null) :
    get_format (some "bogus") none (some (bytesOfAscii "<a/>")) = .ok "xml"
    ∧ parse c py2 dec (bytesOfAscii "<a/>") none (some "bogus") = .ok t := by
  have hg : get_format (some "bogus") none (some (bytesOfAscii "<a/>")) = .ok "xml" := by
    rfl
  refine ⟨hg, ?_⟩
  unfold parse
  rw [hg]
  unfold do_parse
  simp only [show ("xml" = "ini") = False from by simp,
    show ("xml" = "json") = False from by simp,
    show ("xml" = "xml") = True from by simp, if_false, if_true, hx]

/-- The list branch of the normalizer is elementwise normalization. -/
theorem eurList_eq_mapM (dec : List Nat → Option String) (l : List Tree) :
    eurList dec l = l.mapM (ensure_unicode_recursive dec) := by
  induction l with
  | nil => rfl
  | cons t rest ih =>
    rw [eurList, List.mapM_cons, ih]
    cases ensure_unicode_recursive dec t with
    | error e => rfl
    | ok t' =>
      cases rest.mapM (ensure_unicode_recursive dec) with
      | error e => rfl
      | ok rest' => rfl

/-- Reduction of an Except bind on a success value. -/
theorem exceptBind_ok {ee α β : Type} (a : α) (f : α → Except ee β) :
    (Except.ok a >>= f) = f a := rfl

/-- Reduction of an Except bind on an error value. -/
theorem exceptBind_error {ee α β : Type} (e : ee) (f : α → Except ee β) :
    ((Except.error e : Except ee α) >>= f) = Except.error e := rfl

/-- Except pure is ok. -/
theorem exceptPure {ee α : Type} (a : α) : (pure a : Except ee α) = Except.ok a := rfl

/-- Reduction of an Except bind on a pure value. -/
theorem exceptBind_pure {ee α β : Type} (a : α) (f : α → Except ee β) :
    ((pure a : Except ee α) >>= f) = f a := rfl

/-- Reduction of Except.map on a success value. -/
theorem exceptMap_ok {ee α β : Type} (f : α → β) (a : α) :
    Except.map f (Except.ok a : Except ee α) = Except.ok (f a) := rfl

/-- Reduction of Except.map on an error value. -/
theorem exceptMap_error {ee α β : Type} (f : α → β) (e : ee) :
    Except.map f (Except.error e : Except ee α) = Except.error e := rfl

/-- The dict branch of the normalizer normalizes every value then every
key, in item order, and rebuilds the dict by repeated insertion into the
accumulated result. -/
theorem eurPairs_eq_mapM (dec : List Nat → Option String)
    (l : List (Tree × Tree)) :
    ∀ acc, eurPairs dec l acc =
      (l.mapM (fun (p : Tree × Tree) => do
          let v' ← ensure_unicode_recursive dec p.2
          let k' ← ensure_unicode_recursive dec p.1
          pure ((k', v') : Tree × Tree))).map
        (fun (ps : List (Tree × Tree)) => ps.foldl (fun (a : List (Tree × Tree)) (q : Tree × Tree) => treeInsert a q.1 q.2) acc) := by
  induction l with
  | nil => intro acc; rfl
  | cons p rest ih =>
    intro acc
    obtain ⟨k, v⟩ := p
    rw [List.mapM_cons]
    simp only [eurPairs]
    cases hv : ensure_unicode_recursive dec v with
    | error e => simp only [hv, exceptBind_error, exceptMap_error]
    | ok v' =>
      cases hk : ensure_unicode_recursive dec k with
      | error e =>
        simp only [hv, hk, exceptBind_ok, exceptBind_error, exceptMap_error]
      | ok k' =>
        simp only [hv, hk, exceptBind_ok, exceptBind_pure]
        rw [ih (treeInsert acc k' v')]
        cases hr : rest.mapM (fun (p : Tree × Tree) => do
            let v' ← ensure_unicode_recursive dec p.2
            let k' ← ensure_unicode_recursive dec p.1
            pure ((k', v') : Tree × Tree)) with
        | error e => simp only [hr, exceptMap_error, exceptBind_error]
        | ok ps =>
          simp only [hr, exceptMap_ok, exceptBind_ok, exceptPure, List.foldl_cons]

/-- C9: the text normalizer passes decoded text, booleans and null through
unchanged, decodes raw byte strings with the target encoding and fails on
a decode error, rebuilds sequences elementwise and mappings item by item
(values then keys, dict-style insertion), and fails with the
internal-error message naming the type of any other value. -/
theorem normalizer_cases (dec : List Nat → Option String) :
    (∀ s, ensure_unicode_recursive dec (.text s) = .ok (.text s))
    ∧ (∀ b, ensure_unicode_recursive dec (.bool b) = .ok (.bool b))
    ∧ ensure_unicode_recursive dec .null = .ok .null
    ∧ (∀ b, ensure_unicode_recursive dec (.bytes b) =
        match dec b with
        | some s => .ok (.text s)
        | none => .error "UnicodeDecodeError")
    ∧ (∀ l, ensure_unicode_recursive dec (.seq l) =
        (l.mapM (ensure_unicode_recursive dec)).map Tree.seq)
    ∧ (∀ l, ensure_unicode_recursive dec (.map l) =
        ((l.mapM (fun (p : Tree × Tree) => do
            let v' ← ensure_unicode_recursive dec p.2
            let k' ← ensure_unicode_recursive dec p.1
            pure ((k', v') : Tree × Tree))).map
          (fun (ps : List (Tree × Tree)) => Tree.map (ps.foldl (fun (a : List (Tree × Tree)) (q : Tree × Tree) => treeInsert a q.1 q.2) []))))
    ∧ (∀ ty, ensure_unicode_recursive dec (.other ty) =
        .error ("internal error - unexpected type " ++ ty ++ " in parsed markup")) := by
  refine ⟨fun s => rfl, fun b => rfl, rfl, fun b => rfl, ?_, ?_, fun ty => rfl⟩
  · intro l
    rw [ensure_unicode_recursive, eurList_eq_mapM]
  · intro l
    rw [ensure_unicode_recursive, eurPairs_eq_mapM]
    cases l.mapM (fun (p : Tree × Tree) => do
        let v' ← ensure_unicode_recursive dec p.2
        let k' ← ensure_unicode_recursive dec p.1
        pure ((k', v') : Tree × Tree)) with
    | error e => rfl
    | ok ps => rfl

/-- Elementwise reading of `Tree.noBytesList`. -/
theorem noBytesList_iff (l : List Tree) :
    Tree.noBytesList l = true ↔ ∀ t ∈ l, Tree.noBytes t = true := by
  induction l with
  | nil => simp [Tree.noBytesList]
  | cons t rest ih => simp [Tree.noBytesList, ih]

/-- Elementwise reading of `Tree.noBytesPairs`. -/
theorem noBytesPairs_iff (l : List (Tree × Tree)) :
    Tree.noBytesPairs l = true ↔
      ∀ p ∈ l, Tree.noBytes (Prod.fst p) = true ∧ Tree.noBytes (Prod.snd p) = true := by
  induction l with
  | nil => simp [Tree.noBytesPairs]
  | cons p rest ih =>
    obtain ⟨k, v⟩ := p
    simp [Tree.noBytesPairs, ih, and_assoc]

/-- Dict insertion only produces pairs that were already present or the
inserted pair itself. -/
theorem mem_treeInsert {d : List (Tree × Tree)} {k v : Tree} {p : Tree × Tree}
    (h : p ∈ treeInsert d k v) : p ∈ d ∨ p = (k, v) := by
  unfold treeInsert at h
  split at h
  · obtain ⟨q, hq, hqe⟩ := List.mem_map.mp h
    split at hqe
    · right; exact hqe.symm
    · left; exact hqe ▸ hq
  · rcases List.mem_append.mp h with h | h
    · left; exact h
    · right; simpa using h

mutual

/-- A successful normalization result contains no raw byte string. -/
theorem eur_noBytes (dec : List Nat → Option String) :
    ∀ t t', ensure_unicode_recursive dec t = .ok t' → Tree.noBytes t' = true
  | .map l, t', h => by
    rw [ensure_unicode_recursive] at h
    cases hp : eurPairs dec l [] with
    | error e => rw [hp] at h; exact absurd h (by simp [exceptMap_error])
    | ok res =>
      rw [hp, exceptMap_ok] at h
      cases h
      exact eurPairs_noBytes dec l [] res hp rfl
  | .seq l, t', h => by
    rw [ensure_unicode_recursive] at h
    cases hp : eurList dec l with
    | error e => rw [hp] at h; exact absurd h (by simp [exceptMap_error])
    | ok res =>
      rw [hp, exceptMap_ok] at h
      cases h
      exact eurList_noBytes dec l res hp
  | .text s, t', h => by rw [ensure_unicode_recursive] at h; cases h; rfl
  | .bytes b, t', h => by
    rw [ensure_unicode_recursive] at h
    cases hd : dec b with
    | none => rw [hd] at h; exact absurd h (by simp)
    | some s => rw [hd] at h; cases h; rfl
  | .bool b, t', h => by rw [ensure_unicode_recursive] at h; cases h; rfl
  | .null, t', h => by rw [ensure_unicode_recursive] at h; cases h; rfl
  | .other ty, t', h => by
    rw [ensure_unicode_recursive] at h
    exact absurd h (by simp)

/-- The dict branch preserves byte-freedom of the accumulated result. -/
theorem eurPairs_noBytes (dec : List Nat → Option String) :
    ∀ l acc res, eurPairs dec l acc = .ok res →
      Tree.noBytesPairs acc = true → Tree.noBytesPairs res = true
  | [], acc, res, h, hacc => by rw [eurPairs] at h; cases h; exact hacc
  | (k, v) :: rest, acc, res, h, hacc => by
    rw [eurPairs] at h
    cases hv : ensure_unicode_recursive dec v with
    | error e => rw [hv] at h; exact absurd h (by simp [exceptBind_error])
    | ok v' =>
      rw [hv, exceptBind_ok] at h
      cases hk : ensure_unicode_recursive dec k with
      | error e => rw [hk] at h; exact absurd h (by simp [exceptBind_error])
      | ok k' =>
        rw [hk, exceptBind_ok] at h
        have hacc' : Tree.noBytesPairs (treeInsert acc k' v') = true := by
          rw [noBytesPairs_iff]
          intro p hp
          rcases mem_treeInsert hp with hin | rfl
          · exact (noBytesPairs_iff acc).mp hacc p hin
          · exact ⟨eur_noBytes dec k k' hk, eur_noBytes dec v v' hv⟩
        exact eurPairs_noBytes dec rest (treeInsert acc k' v') res h hacc'

/-- The list branch produces only byte-free elements. -/
theorem eurList_noBytes (dec : List Nat → Option String) :
    ∀ l res, eurList dec l = .ok res → Tree.noBytesList res = true
  | [], res, h => by rw [eurList] at h; cases h; rfl
  | t :: rest, res, h => by
    rw [eurList] at h
    cases ht : ensure_unicode_recursive dec t with
    | error e => rw [ht] at h; exact absurd h (by simp [exceptBind_error])
    | ok t' =>
      rw [ht, exceptBind_ok] at h
      cases hr : eurList dec rest with
      | error e => rw [hr] at h; exact absurd h (by simp [exceptBind_error])
      | ok rest' =>
        rw [hr, exceptBind_ok] at h
        cases h
        rw [Tree.noBytesList, eur_noBytes dec t t' ht,
          eurList_noBytes dec rest rest' hr]
        rfl

end

/-- C7 counterexample: with override "bogus" (supplied, unrecognized, hence
insufficient) and filename "bogus", the failure message names only the
filename — the reporting dict is keyed by the input values themselves, so
the equal override and filename collapse into one entry and the override
goes unmentioned. -/
theorem error_enumeration_counterexample :
    registryHas "bogus" = false
    ∧ get_format (some "bogus") (some "bogus") none
        = .error "Failed to guess markup format based on: filename" :=
  ⟨by decide, by rfl⟩

/-- C7 amended: the failure message enumerates the truthy supplied-but-
insufficient inputs in override, filename, content order — except that the
reporting dict is keyed by the input values, so when the override and the
filename are equal strings they collapse into a single "filename" entry;
with nothing supplied the message states "nothing to guess format from!". -/
theorem resolution_failure_message :
    (∀ f fn, registryHas f = false → f ≠ "" → fn ≠ "" → fn ≠ f →
       get_format (some f) (some fn) none
         = .error "Failed to guess markup format based on: specified format argument, filename")
    ∧ (∀ f, registryHas f = false → f ≠ "" →
       get_format (some f) none none
         = .error "Failed to guess markup format based on: specified format argument")
    ∧ (∀ f, registryHas f = false → f ≠ "" →
       get_format (some f) (some f) none
         = .error "Failed to guess markup format based on: filename")
    ∧ (∀ fn, fn ≠ "" → extScan (fileExt fn) = none →
       get_format none (some fn) none
         = .error "Failed to guess markup format based on: filename")
    ∧ get_format none none none
        = .error "Failed to guess markup format based on: nothing to guess format from!" := by
  refine ⟨?_, ?_, ?_, ?_, rfl⟩
  · intro f fn hf hne hfn hd
    simp [get_format, hf, format_err_msg, dictInsert, pyOfOptStr, pyOfOptBytes,
      PyVal.truthy, hne, hfn, hd, Ne.symm hd, PyVal.vstr.injEq]
    rfl
  · intro f hf hne
    simp [get_format, hf, format_err_msg, dictInsert, pyOfOptStr, pyOfOptBytes,
      PyVal.truthy, hne]
    rfl
  · intro f hf hne
    simp [get_format, hf, format_err_msg, dictInsert, pyOfOptStr, pyOfOptBytes,
      PyVal.truthy, hne]
    rfl
  · intro fn hfn hext
    simp [get_format, hfn, hext, format_err_msg, dictInsert, pyOfOptStr,
      pyOfOptBytes, PyVal.truthy]
    rfl

/-- Witness for C7 at concrete inputs covering all five amended cases. -/
theorem resolution_failure_message_witness :
    get_format (some "bogus") (some "f.txt") none
      = .error "Failed to guess markup format based on: specified format argument, filename"
    ∧ get_format (some "bogus") none none
      = .error "Failed to guess markup format based on: specified format argument"
    ∧ get_format (some "bogus") (some "bogus") none
      = .error "Failed to guess markup format based on: filename"
    ∧ get_format none (some "f.txt") none
      = .error "Failed to guess markup format based on: filename"
    ∧ get_format none none none
      = .error "Failed to guess markup format based on: nothing to guess format from!" :=
  ⟨resolution_failure_message.1 "bogus" "f.txt" (by decide) (by decide)
     (by decide) (by decide),
   resolution_failure_message.2.1 "bogus" (by decide) (by decide),
   resolution_failure_message.2.2.1 "bogus" (by decide) (by decide),
   resolution_failure_message.2.2.2.1 "f.txt" (by decide) (by decide),
   resolution_failure_message.2.2.2.2⟩

/-- C4: text purity of parse.  The json and xml codec results are returned
as produced, so purity holds under the external contract that those codecs
emit fully decoded trees; for ini and yaml the same contract is needed on
the modern runtime, while on the legacy runtime the normalizer enforces it
unconditionally.  Under these collaborator contracts, every tree `parse`
returns contains no raw byte string anywhere — keys included. -/
theorem parse_text_purity (c : Codecs) (py2 : Bool) (dec : List Nat → Option String)
    (hjson : ∀ b t, c.json b = .ok t → Tree.noBytes t = true)
    (hxml : ∀ b t, c.xml b = .ok t → Tree.noBytes t = true)
    (hini : py2 = false → ∀ b t, c.ini b = .ok t → Tree.noBytes t = true)
    (hyaml : py2 = false → ∀ b t, c.yaml b = .ok t → Tree.noBytes t = true) :
    ∀ inp name format t, parse c py2 dec inp name format = .ok t →
      Tree.noBytes t = true := by
  intro inp name format t h
  unfold parse at h
  cases hg : get_format format name (some inp) with
  | error e => simp only [hg] at h; exact Except.noConfusion h
  | ok fmt =>
    simp only [hg] at h
    cases hd : do_parse c py2 dec inp fmt with
    | error e => simp only [hd] at h; exact Except.noConfusion h
    | ok t0 =>
      simp only [hd] at h
      have ht0 : Tree.noBytes t0 = true := by
        unfold do_parse at hd
        by_cases h1 : fmt = "ini"
        · rw [if_pos h1] at hd
          cases hc : c.ini inp with
          | error e => simp only [hc] at hd; exact Except.noConfusion hd
          | ok r =>
            simp only [hc] at hd
            cases py2 with
            | false =>
              rw [if_neg (by simp)] at hd
              cases hd
              exact hini rfl inp _ hc
            | true =>
              rw [if_pos rfl] at hd
              exact eur_noBytes dec r t0 hd
        · rw [if_neg h1] at hd
          by_cases h2 : fmt = "json"
          · rw [if_pos h2] at hd
            exact hjson inp t0 hd
          · rw [if_neg h2] at hd
            by_cases h3 : fmt = "xml"
            · rw [if_pos h3] at hd
              exact hxml inp t0 hd
            · rw [if_neg h3] at hd
              by_cases h4 : fmt = "yaml"
              · rw [if_pos h4] at hd
                cases hc : c.yaml inp with
                | error e => simp only [hc] at hd; exact Except.noConfusion hd
                | ok r =>
                  simp only [hc] at hd
                  cases py2 with
                  | false =>
                    rw [if_neg (by simp)] at hd
                    cases hd
                    exact hyaml rfl inp _ hc
                  | true =>
                    rw [if_pos rfl] at hd
                    exact eur_noBytes dec r t0 hd
              · rw [if_neg h4] at hd
                cases hd
      cases h
      cases t0 with
      | null => rfl
      | map l => exact ht0
      | seq l => exact ht0
      | text s => exact ht0
      | bytes b => exact ht0
      | bool b => exact ht0
      | other ty => exact ht0

/-- Witness for C4: with concrete decoded-output codecs, parsing concrete
yaml input yields a tree certified byte-free by the theorem. -/
theorem parse_text_purity_witness :
    parse demoCodecs false demoDec (bytesOfAscii "a: 1") none (some "yaml")
      = .ok (.text "a")
    ∧ Tree.noBytes (.text "a") = true :=
  ⟨rfl,
   parse_text_purity demoCodecs false demoDec
     (fun _ _ h => (Except.ok.inj h) ▸ rfl)
     (fun _ _ h => (Except.ok.inj h) ▸ rfl)
     (fun _ _ _ h => (Except.ok.inj h) ▸ rfl)
     (fun _ _ _ h => (Except.ok.inj h) ▸ rfl)
     (bytesOfAscii "a: 1") none (some "yaml") (.text "a") rfl⟩

/-- A comment line or a blank line can never match the INI section-header
pattern, which requires an opening square bracket first. -/
theorem commentOrBlank_no_header {l : List Nat}
    (h : l = [] ∨ l.head? = some 35) : iniSectionHeaderMatch l = false := by
  rcases h with h | h
  · subst h; rfl
  · cases l with
    | nil => rfl
    | cons b rest =>
      simp only [List.head?] at h
      cases h
      rfl

/-- The comment-skipping scan only ever returns its initial value or the
stripped form of a scanned line, so if none of those can match the INI
pattern, neither can its result. -/
theorem scanLines_no_header (ls : List (List Nat)) (init : List Nat)
    (h : ∀ l ∈ ls, iniSectionHeaderMatch (bstrip l) = false)
    (hinit : iniSectionHeaderMatch init = false) :
    iniSectionHeaderMatch (scanLines ls init) = false := by
  induction ls generalizing init with
  | nil => exact hinit
  | cons l rest ih =>
    have hl := h l (List.mem_cons_self _ _)
    rw [scanLines]
    split
    · exact hl
    · exact ih (bstrip l) (fun x hx => h x (List.mem_cons_of_mem _ hx)) hl

/-- C10: any non-empty input that does not start (after stripping) with an
angle bracket and whose lines are all blank or hash-comments sniffs as
yaml — the final INI-pattern test runs on a stale comment/blank line and
can never fire. -/
theorem comment_only_input_sniffs_yaml (inp : List Nat)
    (h1 : bstrip inp ≠ [])
    (h2 : (bstrip inp).head? ≠ some 60)
    (h3 : ∀ l ∈ bsplitlines (bstrip inp),
            bstrip l = [] ∨ (bstrip l).head? = some 35) :
    guess_fmt_from_bytes inp = "yaml" := by
  have hscan : iniSectionHeaderMatch
      (scanLines (bsplitlines (bstrip inp)) []) = false :=
    scanLines_no_header _ _ (fun l hl => commentOrBlank_no_header (h3 l hl)) rfl
  simp only [guess_fmt_from_bytes]
  rw [if_neg h1, if_neg (by simpa using h2), if_neg (by simp [hscan])]

/-- Witness for C10 on a concrete comment/blank-only input. -/
theorem comment_only_input_sniffs_yaml_witness :
    guess_fmt_from_bytes (bytesOfAscii "  #a\n\n  # b c\n") = "yaml" :=
  comment_only_input_sniffs_yaml (bytesOfAscii "  #a\n\n  # b c\n")
    (by decide) (by decide) (by decide)

/-- Witness for C3: with a concrete xml decoder the call succeeds and
returns the tree of that decoder. -/
theorem bogus_override_xml_parse_witness :
    get_format (some "bogus") none (some (bytesOfAscii "<a/>")) = .ok "xml"
    ∧ parse demoCodecs false demoDec (bytesOfAscii "<a/>") none (some "bogus")
        = .ok xmlDemoTree :=
  bogus_override_xml_parse demoCodecs false demoDec xmlDemoTree rfl
    (by simp [xmlDemoTree])

end Anymarkup
